import Mathlib

/-!
# Verification of the instrumented Redis cache (`exercise.py`) and the
# expiring web cache (`web.py`)

A shallow embedding of the two modules of the repository.  The external
Redis store is modelled as an association list from keys to entries, each
entry carrying a value and an optional absolute expiry time, together with
a current clock (`now`).  Redis primitives used by the code — SET, SETEX,
INCR, RPUSH, LRANGE, GET, FLUSHDB — are modelled as pure state
transformers.  Values written by INCR are integer-valued strings in real
Redis; they are modelled by the dedicated `RVal.int` constructor so that
`int(value.decode("utf-8"))` on such a value is the identity on the
carried integer.  WRONGTYPE errors (e.g. RPUSH on a string-valued key,
INCR on non-numeric text) are not modelled: the branches where they would
arise are unreachable in the developments below, which only exercise keys
of a single type.
-/

/-- A Redis value: a byte string (bytes are modelled as `String`), an
integer-valued string as written by INCR, or a list as written by RPUSH. -/
inductive RVal where
  | str (s : String)
  | int (n : Int)
  | list (l : List String)
deriving DecidableEq, Repr

/-- A stored entry: its value and an optional absolute expiry instant.
`expiresAt = some t` means the key is live strictly before time `t`. -/
structure Entry where
  val : RVal
  expiresAt : Option Nat
deriving DecidableEq, Repr

/-- The state of the Redis database: an association list (the first
binding of a key wins) and the current clock. -/
structure RedisState where
  store : List (String × Entry)
  now : Nat
deriving DecidableEq, Repr

/-- Look a key up, treating an expired entry as absent (Redis enforces
TTLs lazily: a read of an expired key behaves as absent). -/
def lookupLive (st : RedisState) (k : String) : Option RVal :=
  match st.store.lookup k with
  | none => none
  | some e =>
    match e.expiresAt with
    | none => some e.val
    | some t => if st.now < t then some e.val else none

/-- Bind a key to an entry (the new binding shadows any older one). -/
def setEntry (st : RedisState) (k : String) (e : Entry) : RedisState :=
  ⟨(k, e) :: st.store, st.now⟩

/-- Redis SET: store a byte string, clearing any TTL. -/
def redisSet (st : RedisState) (k : String) (v : String) : RedisState :=
  setEntry st k ⟨RVal.str v, none⟩

/-- Redis SETEX: store a byte string that expires `ttl` time units from now. -/
def redisSetex (st : RedisState) (k : String) (ttl : Nat) (v : String) : RedisState :=
  setEntry st k ⟨RVal.str v, some (st.now + ttl)⟩

/-- Redis INCR: increment the integer at `k`, starting from 0 when the key
is absent.  The stored value is persistent (no TTL).  INCR on a
non-integer value raises in Redis; that branch is unreachable here and is
modelled as starting from 0. -/
def redisIncr (st : RedisState) (k : String) : RedisState :=
  let cur : Int :=
    match lookupLive st k with
    | some (RVal.int n) => n
    | _ => 0
  setEntry st k ⟨RVal.int (cur + 1), none⟩

/-- Redis RPUSH: append to the list at `k`, creating it when absent.
RPUSH on a non-list value raises in Redis; that branch is unreachable
here and is modelled as starting from the empty list. -/
def redisRpush (st : RedisState) (k : String) (v : String) : RedisState :=
  let old : List String :=
    match lookupLive st k with
    | some (RVal.list l) => l
    | _ => []
  setEntry st k ⟨RVal.list (old ++ [v]), none⟩

/-- Redis LRANGE key 0 -1: the whole list, `[]` when the key is absent. -/
def redisLrange (st : RedisState) (k : String) : List String :=
  match lookupLive st k with
  | some (RVal.list l) => l
  | _ => []

/-- Redis GET: the byte string at `k`, absent for a missing or expired
key.  An integer-valued string reads back as its decimal text.  GET on a
list raises in Redis; that branch is unreachable here and returns absent. -/
def redisGET (st : RedisState) (k : String) : Option String :=
  match lookupLive st k with
  | some (RVal.str s) => some s
  | some (RVal.int n) => some (toString n)
  | _ => none

/-- Redis FLUSHDB: drop every key of the database. -/
def flushdb (st : RedisState) : RedisState :=
  ⟨[], st.now⟩

/-- Let `dt` time units elapse. -/
def tick (st : RedisState) (dt : Nat) : RedisState :=
  ⟨st.store, st.now + dt⟩

/-!
## The values storable by `Cache.store`

`Cache.store` accepts `Union[str, bytes, int, float]`.  Bytes are modelled
as `String` (a byte sequence); a Python float is modelled by its `repr`
text, which is exactly what the redis-py client sends on the wire, so the
embedding identifies a float with its textual representation.
-/

/-- A storable Python value: text, byte-sequence, integer, or a
floating-point value identified with its `repr` text. -/
inductive PyVal where
  | pstr (s : String)
  | pbytes (b : String)
  | pint (n : Int)
  | pfloat (f : String)
deriving DecidableEq, Repr

/-- The byte encoding the redis-py client applies to a value passed to
SET: text is UTF-8 encoded (identity in this model), bytes pass through,
an int is sent as its decimal text, a float as its `repr` text. -/
def redisEncode : PyVal → String
  | PyVal.pstr s => s
  | PyVal.pbytes b => b
  | PyVal.pint n => toString n
  | PyVal.pfloat f => f

/-- Python `repr` of a storable value (escaping of special characters
inside string literals is not modelled). -/
def pyRepr : PyVal → String
  | PyVal.pstr s => "'" ++ s ++ "'"
  | PyVal.pbytes b => "b'" ++ b ++ "'"
  | PyVal.pint n => toString n
  | PyVal.pfloat f => f

/-- Python `str(args)` for the one-element positional tuple `(data,)`
that `call_history` records for a `store` call. -/
def strArgs (data : PyVal) : String :=
  "(" ++ pyRepr data ++ ",)"

/-!
## `exercise.py`: the `Cache` class

`Cache.store` is decorated `@call_history` over `@count_calls`.  The
fresh UUID that `store` generates is passed in as the `key` argument (UUID
generation is an external source of randomness; the theorems assume the
usual freshness of UUIDs through explicit hypotheses).
-/

/-- The undecorated body of `Cache.store`: persist the encoded data under
the freshly generated key and return the key. -/
def store_body (st : RedisState) (key : String) (data : PyVal) : RedisState × String :=
  (redisSet st key (redisEncode data), key)

/-- `count_calls` applied to `store_body`: INCR the counter keyed by the
method's qualified name `"Cache.store"`, then run the body. -/
def count_calls_store (st : RedisState) (key : String) (data : PyVal) : RedisState × String :=
  store_body (redisIncr st "Cache.store") key data

/-- The fully decorated `Cache.store`: `call_history` RPUSHes `str(args)`
onto `"Cache.store:inputs"`, runs the `count_calls`-wrapped body, RPUSHes
the returned key onto `"Cache.store:outputs"`, and returns the key. -/
def Cache.store (st : RedisState) (key : String) (data : PyVal) : RedisState × String :=
  let st1 := redisRpush st "Cache.store:inputs" (strArgs data)
  let p := count_calls_store st1 key data
  let st3 := redisRpush p.1 "Cache.store:outputs" p.2
  (st3, p.2)

/-- The generic `call_history` wrapper run on a fallible body (the body
returns `none` when it raises, e.g. on store unavailability; the
exception propagates, so the output RPUSH is skipped). -/
def call_history_run (st : RedisState) (qualname : String) (argsRepr : String)
    (body : RedisState → RedisState × Option String) : RedisState × Option String :=
  let st1 := redisRpush st (qualname ++ ":inputs") argsRepr
  match body st1 with
  | (st2, some result) => (redisRpush st2 (qualname ++ ":outputs") result, some result)
  | (st2, none) => (st2, none)

/-- A sequence of `Cache.store` calls, each with its generated key and data. -/
def storeSeq (st : RedisState) (calls : List (String × PyVal)) : RedisState :=
  calls.foldl (fun s c => (Cache.store s c.1 c.2).1) st

/-- `Cache.__init__`: connect to the database and FLUSHDB it. -/
def Cache.init (st : RedisState) : RedisState :=
  flushdb st

/-- `Cache.get` with no conversion function: GET the key, returning
absent when the key is absent. -/
def Cache.get (st : RedisState) (key : String) : Option String :=
  match redisGET st key with
  | none => none
  | some value => some value

/-- `Cache.get` with a conversion function `fn`: GET the key; absent stays
absent, otherwise `fn` is applied to the raw bytes. -/
def Cache.getFn {α : Type} (st : RedisState) (key : String) (fn : String → α) : Option α :=
  match redisGET st key with
  | none => none
  | some value => some (fn value)

/-- `Cache.get_str`: decode the bytes as UTF-8 text (the identity in this
byte-sequences-as-strings model). -/
def Cache.get_str (st : RedisState) (key : String) : Option String :=
  Cache.getFn st key (fun d => d)

/-- `Cache.get_int`: apply Python `int` to the bytes.  The outer `Option`
is absence of the key; the inner `Option` is `none` exactly when the parse
raises (the exception propagates to the caller). -/
def Cache.get_int (st : RedisState) (key : String) : Option (Option Int) :=
  Cache.getFn st key String.toInt?

/-- The count that `replay` computes:
`int(count.decode("utf-8")) if count else 0`, with the surrounding
`try/except` mapping a parse failure to 0.  An absent key and the falsy
`b""` give 0; an INCR-written integer-valued string parses back to its
integer. -/
def replayCount (st : RedisState) (qualname : String) : Int :=
  match lookupLive st qualname with
  | some (RVal.int n) => n
  | some (RVal.str s) => if s = "" then 0 else (String.toInt? s).getD 0
  | _ => 0

/-- `Cache.replay`, returning the printed lines: the header, then one line
per `zip`-pair of the inputs and outputs history lists, in order. -/
def Cache.replay (st : RedisState) (qualname : String) : List String :=
  let count := replayCount st qualname
  let inputs := redisLrange st (qualname ++ ":inputs")
  let outputs := redisLrange st (qualname ++ ":outputs")
  (qualname ++ " was called " ++ toString count ++ " times:")
    :: (inputs.zip outputs).map
        (fun p => qualname ++ "(*" ++ p.1 ++ ") -> " ++ p.2)

/-!
## `web.py`: the expiring web cache and tracker

The remote-fetch primitive (`requests.get` + `raise_for_status` + `.text`)
is an external collaborator, passed in as `remote : String → Option String`
(`none` models a raised request exception).  `FetchResult.remoteCalls`
counts how often the primitive was invoked during the call.
-/

/-- Python truthiness of the `Optional[bytes]` read from the cache key:
`None` and the empty byte string are falsy. -/
def truthy : Option String → Bool
  | none => false
  | some s => decide (s ≠ "")

/-- The outcome of one `get_page` call: the database afterwards, the
returned content (`none` when the remote failure propagated), and how
often the remote-fetch primitive was invoked. -/
structure FetchResult where
  st : RedisState
  result : Option String
  remoteCalls : Nat
deriving DecidableEq, Repr

/-- The `url_access_tracker` wrapper around `get_page`: INCR
`"count:<url>"`, then return the cached content at `"cache:<url>"` if it
is truthy; otherwise invoke the remote-fetch primitive and, on success,
SETEX the content for 10 time units and return it (a raised failure
propagates before the SETEX). -/
def get_page (st : RedisState) (remote : String → Option String) (url : String) :
    FetchResult :=
  let st1 := redisIncr st ("count:" ++ url)
  let cached := redisGET st1 ("cache:" ++ url)
  if truthy cached then
    ⟨st1, some (cached.getD ""), 0⟩
  else
    match remote url with
    | none => ⟨st1, none, 1⟩
    | some html => ⟨redisSetex st1 ("cache:" ++ url) 10 html, some html, 1⟩

/-- The value of a counter key, 0 when absent. -/
def counterVal (st : RedisState) (k : String) : Int :=
  match lookupLive st k with
  | some (RVal.int n) => n
  | _ => 0

/-!
## Basic lemmas about the store model
-/

theorem tick_setEntry (st : RedisState) (k : String) (e : Entry) (dt : Nat) :
    tick (setEntry st k e) dt = setEntry (tick st dt) k e := rfl

theorem tick_zero (st : RedisState) : tick st 0 = st := rfl

theorem lookupLive_setEntry_self (st : RedisState) (k : String) (v : RVal) :
    lookupLive (setEntry st k ⟨v, none⟩) k = some v := by
  simp [lookupLive, setEntry, List.lookup]

theorem lookupLive_setEntry_ttl (st : RedisState) (k : String) (v : RVal) (t : Nat) :
    lookupLive (setEntry st k ⟨v, some t⟩) k
      = if st.now < t then some v else none := by
  simp [lookupLive, setEntry, List.lookup]

theorem lookupLive_setEntry_ne (st : RedisState) (k k' : String) (e : Entry)
    (h : k' ≠ k) : lookupLive (setEntry st k e) k' = lookupLive st k' := by
  have hb : (k' == k) = false := beq_eq_false_iff_ne.mpr h
  simp [lookupLive, setEntry, List.lookup, hb]

theorem lookupLive_flushdb (st : RedisState) (k : String) :
    lookupLive (flushdb st) k = none := by
  simp [lookupLive, flushdb, List.lookup]

theorem redisIncr_eq (st : RedisState) (k : String) :
    redisIncr st k = setEntry st k ⟨RVal.int (counterVal st k + 1), none⟩ := rfl

theorem redisRpush_eq (st : RedisState) (k : String) (v : String) :
    redisRpush st k v = setEntry st k ⟨RVal.list (redisLrange st k ++ [v]), none⟩ := rfl

theorem redisSet_eq (st : RedisState) (k v : String) :
    redisSet st k v = setEntry st k ⟨RVal.str v, none⟩ := rfl

theorem counterVal_setEntry_ne (st : RedisState) (k k' : String) (e : Entry)
    (h : k' ≠ k) : counterVal (setEntry st k e) k' = counterVal st k' := by
  simp [counterVal, lookupLive_setEntry_ne st k k' e h]

theorem counterVal_incr_self (st : RedisState) (k : String) :
    counterVal (redisIncr st k) k = counterVal st k + 1 := by
  rw [redisIncr_eq]
  simp [counterVal, lookupLive_setEntry_self]

theorem redisLrange_setEntry_ne (st : RedisState) (k k' : String) (e : Entry)
    (h : k' ≠ k) : redisLrange (setEntry st k e) k' = redisLrange st k' := by
  simp [redisLrange, lookupLive_setEntry_ne st k k' e h]

theorem redisLrange_rpush_self (st : RedisState) (k : String) (v : String) :
    redisLrange (redisRpush st k v) k = redisLrange st k ++ [v] := by
  rw [redisRpush_eq]
  simp [redisLrange, lookupLive_setEntry_self]

theorem redisGET_setEntry_ne (st : RedisState) (k k' : String) (e : Entry)
    (h : k' ≠ k) : redisGET (setEntry st k e) k' = redisGET st k' := by
  simp [redisGET, lookupLive_setEntry_ne st k k' e h]

theorem lookupLive_rpush_ne (st : RedisState) (k k' v : String) (h : k' ≠ k) :
    lookupLive (redisRpush st k v) k' = lookupLive st k' := by
  rw [redisRpush_eq]; exact lookupLive_setEntry_ne _ _ _ _ h

theorem lookupLive_set_ne (st : RedisState) (k v k' : String) (h : k' ≠ k) :
    lookupLive (redisSet st k v) k' = lookupLive st k' := by
  rw [redisSet_eq]; exact lookupLive_setEntry_ne _ _ _ _ h

theorem lookupLive_incr_ne (st : RedisState) (k k' : String) (h : k' ≠ k) :
    lookupLive (redisIncr st k) k' = lookupLive st k' := by
  rw [redisIncr_eq]; exact lookupLive_setEntry_ne _ _ _ _ h

theorem lookupLive_incr_self (st : RedisState) (k : String) :
    lookupLive (redisIncr st k) k = some (RVal.int (counterVal st k + 1)) := by
  rw [redisIncr_eq]; exact lookupLive_setEntry_self _ _ _

theorem counterVal_rpush_ne (st : RedisState) (k k' v : String) (h : k' ≠ k) :
    counterVal (redisRpush st k v) k' = counterVal st k' := by
  simp [counterVal, lookupLive_rpush_ne st k k' v h]

theorem counterVal_set_ne (st : RedisState) (k v k' : String) (h : k' ≠ k) :
    counterVal (redisSet st k v) k' = counterVal st k' := by
  simp [counterVal, lookupLive_set_ne st k v k' h]

theorem redisLrange_rpush_ne (st : RedisState) (k k' v : String) (h : k' ≠ k) :
    redisLrange (redisRpush st k v) k' = redisLrange st k' := by
  simp [redisLrange, lookupLive_rpush_ne st k k' v h]

theorem redisLrange_set_ne (st : RedisState) (k v k' : String) (h : k' ≠ k) :
    redisLrange (redisSet st k v) k' = redisLrange st k' := by
  simp [redisLrange, lookupLive_set_ne st k v k' h]

theorem redisLrange_incr_ne (st : RedisState) (k k' : String) (h : k' ≠ k) :
    redisLrange (redisIncr st k) k' = redisLrange st k' := by
  simp [redisLrange, lookupLive_incr_ne st k k' h]

/-- The state after one `Cache.store` call, spelled out. -/
theorem store_fst (st : RedisState) (key : String) (data : PyVal) :
    (Cache.store st key data).1
      = redisRpush (redisSet (redisIncr
          (redisRpush st "Cache.store:inputs" (strArgs data)) "Cache.store")
          key (redisEncode data)) "Cache.store:outputs" key := rfl

/-- `Cache.store` returns the generated key. -/
theorem store_snd (st : RedisState) (key : String) (data : PyVal) :
    (Cache.store st key data).2 = key := rfl

/-- The effect of one `Cache.store` call with a fresh generated key on the
counter and the two history lists. -/
theorem store_step (st : RedisState) (key : String) (data : PyVal)
    (h1 : key ≠ "Cache.store") (h2 : key ≠ "Cache.store:inputs")
    (h3 : key ≠ "Cache.store:outputs") :
    lookupLive (Cache.store st key data).1 "Cache.store"
        = some (RVal.int (counterVal st "Cache.store" + 1))
    ∧ redisLrange (Cache.store st key data).1 "Cache.store:inputs"
        = redisLrange st "Cache.store:inputs" ++ [strArgs data]
    ∧ redisLrange (Cache.store st key data).1 "Cache.store:outputs"
        = redisLrange st "Cache.store:outputs" ++ [key] := by
  have e1 : ("Cache.store" : String) ≠ "Cache.store:outputs" := by decide
  have e2 : ("Cache.store" : String) ≠ "Cache.store:inputs" := by decide
  have e3 : ("Cache.store:inputs" : String) ≠ "Cache.store:outputs" := by decide
  have e4 : ("Cache.store:outputs" : String) ≠ "Cache.store:inputs" := by decide
  refine ⟨?_, ?_, ?_⟩
  · rw [store_fst, lookupLive_rpush_ne _ _ _ _ e1,
        lookupLive_set_ne _ _ _ _ (Ne.symm h1), lookupLive_incr_self,
        counterVal_rpush_ne _ _ _ _ e2]
  · rw [store_fst, redisLrange_rpush_ne _ _ _ _ e3,
        redisLrange_set_ne _ _ _ _ (Ne.symm h2),
        redisLrange_incr_ne _ _ _ (Ne.symm e2), redisLrange_rpush_self]
  · rw [store_fst, redisLrange_rpush_self,
        redisLrange_set_ne _ _ _ _ (Ne.symm h3),
        redisLrange_incr_ne _ _ _ (by decide : ("Cache.store:outputs" : String) ≠ "Cache.store"),
        redisLrange_rpush_ne _ _ _ _ e4]

theorem storeSeq_nil (st : RedisState) : storeSeq st [] = st := rfl

theorem storeSeq_cons (st : RedisState) (c : String × PyVal)
    (cs : List (String × PyVal)) :
    storeSeq st (c :: cs) = storeSeq (Cache.store st c.1 c.2).1 cs := rfl

theorem counterVal_of_lookup (st : RedisState) (k : String) (n : Int)
    (h : lookupLive st k = some (RVal.int n)) : counterVal st k = n := by
  simp [counterVal, h]

/-- The cumulative effect of a sequence of `Cache.store` calls with fresh
generated keys: the counter grows by the number of calls, the inputs list
gains the `str(args)` of each call and the outputs list gains each
returned key, in call order. -/
theorem storeSeq_spec (calls : List (String × PyVal)) (st : RedisState)
    (hfresh : ∀ c ∈ calls, c.1 ≠ "Cache.store" ∧ c.1 ≠ "Cache.store:inputs"
        ∧ c.1 ≠ "Cache.store:outputs") :
    counterVal (storeSeq st calls) "Cache.store"
        = counterVal st "Cache.store" + calls.length
    ∧ redisLrange (storeSeq st calls) "Cache.store:inputs"
        = redisLrange st "Cache.store:inputs" ++ calls.map (fun c => strArgs c.2)
    ∧ redisLrange (storeSeq st calls) "Cache.store:outputs"
        = redisLrange st "Cache.store:outputs" ++ calls.map (fun c => c.1)
    ∧ (calls ≠ [] → lookupLive (storeSeq st calls) "Cache.store"
        = some (RVal.int (counterVal st "Cache.store" + calls.length))) := by
  induction calls generalizing st with
  | nil => simp [storeSeq_nil]
  | cons c cs ih =>
    obtain ⟨h1, h2, h3⟩ := hfresh c (List.mem_cons_self c cs)
    have hstep := store_step st c.1 c.2 h1 h2 h3
    have hcnt : counterVal (Cache.store st c.1 c.2).1 "Cache.store"
        = counterVal st "Cache.store" + 1 := counterVal_of_lookup _ _ _ hstep.1
    have ihs := ih (Cache.store st c.1 c.2).1
      (fun d hd => hfresh d (List.mem_cons_of_mem c hd))
    rw [storeSeq_cons]
    refine ⟨?_, ?_, ?_, ?_⟩
    · rw [ihs.1, hcnt]; push_cast [List.length_cons]; ring
    · rw [ihs.2.1, hstep.2.1]; simp
    · rw [ihs.2.2.1, hstep.2.2]; simp
    · intro _
      cases cs with
      | nil => rw [storeSeq_nil, hstep.1]; norm_num
      | cons d ds =>
        rw [ihs.2.2.2 (List.cons_ne_nil d ds), hcnt]
        congr 2
        push_cast [List.length_cons]
        ring

theorem redisSetex_eq (st : RedisState) (k : String) (ttl : Nat) (v : String) :
    redisSetex st k ttl v
      = setEntry st k ⟨RVal.str v, some (st.now + ttl)⟩ := rfl

theorem tick_now (st : RedisState) (dt : Nat) : (tick st dt).now = st.now + dt := rfl

theorem redisGET_set_self (st : RedisState) (k v : String) :
    redisGET (redisSet st k v) k = some v := by
  rw [redisSet_eq]; simp [redisGET, lookupLive_setEntry_self]

theorem redisGET_rpush_ne (st : RedisState) (k k' v : String) (h : k' ≠ k) :
    redisGET (redisRpush st k v) k' = redisGET st k' := by
  rw [redisRpush_eq]; exact redisGET_setEntry_ne _ _ _ _ h

theorem redisGET_incr_ne (st : RedisState) (k k' : String) (h : k' ≠ k) :
    redisGET (redisIncr st k) k' = redisGET st k' := by
  rw [redisIncr_eq]; exact redisGET_setEntry_ne _ _ _ _ h

theorem counterVal_setex_ne (st : RedisState) (k : String) (ttl : Nat) (v k' : String)
    (h : k' ≠ k) : counterVal (redisSetex st k ttl v) k' = counterVal st k' := by
  rw [redisSetex_eq]; simp [counterVal, lookupLive_setEntry_ne _ _ _ _ h]

theorem lookupLive_setex_ne (st : RedisState) (k : String) (ttl : Nat) (v k' : String)
    (h : k' ≠ k) : lookupLive (redisSetex st k ttl v) k' = lookupLive st k' := by
  rw [redisSetex_eq]; exact lookupLive_setEntry_ne _ _ _ _ h

theorem lookupLive_tick_incr_self (st : RedisState) (k : String) (dt : Nat) :
    lookupLive (tick (redisIncr st k) dt) k = some (RVal.int (counterVal st k + 1)) := by
  rw [redisIncr_eq, tick_setEntry]
  exact lookupLive_setEntry_self _ _ _

theorem lookupLive_tick_setex_ne (st : RedisState) (k : String) (ttl : Nat)
    (v k' : String) (dt : Nat) (h : k' ≠ k) :
    lookupLive (tick (redisSetex st k ttl v) dt) k' = lookupLive (tick st dt) k' := by
  rw [redisSetex_eq, tick_setEntry]
  exact lookupLive_setEntry_ne _ _ _ _ h

theorem redisGET_tick_setex_self (st : RedisState) (k : String) (ttl : Nat)
    (v : String) (dt : Nat) (hdt : dt < ttl) :
    redisGET (tick (redisSetex st k ttl v) dt) k = some v := by
  rw [redisSetex_eq, tick_setEntry]
  rw [redisGET, lookupLive_setEntry_ttl]
  simp [tick_now, Nat.add_lt_add_iff_left, hdt]

/-- The access-counter key and the cache key of the same url always differ. -/
theorem count_key_ne_cache_key (url : String) :
    "count:" ++ url ≠ "cache:" ++ url := by
  intro h
  have h2 : ('c' :: 'o' :: 'u' :: 'n' :: 't' :: ':' :: url.data)
      = ('c' :: 'a' :: 'c' :: 'h' :: 'e' :: ':' :: url.data) := congrArg String.data h
  injection h2 with _ h3
  injection h3 with h4 _
  exact absurd h4 (by decide)

/-!
## The claims
-/

/-- C1: for every storable value `v` (text, byte-sequence, integer, or
floating-point), calling `store(v)` and then retrieving the returned
identifier with `get` yields `v` back modulo the byte/text encoding of the
chosen type: `get` returns exactly the wire encoding of `v`, and for the
text and byte-sequence types the decoded value is `v` itself. -/
theorem store_get_roundtrip (st : RedisState) (key : String) (data : PyVal)
    (hk : key ≠ "Cache.store:outputs") :
    Cache.get (Cache.store st key data).1 (Cache.store st key data).2
        = some (redisEncode data)
    ∧ (∀ s, data = PyVal.pstr s →
        Cache.get_str (Cache.store st key data).1 (Cache.store st key data).2 = some s)
    ∧ (∀ b, data = PyVal.pbytes b →
        Cache.get (Cache.store st key data).1 (Cache.store st key data).2 = some b) := by
  have hget : redisGET (Cache.store st key data).1 (Cache.store st key data).2
      = some (redisEncode data) := by
    rw [store_snd, store_fst, redisGET_rpush_ne _ _ _ _ hk, redisGET_set_self]
  refine ⟨?_, ?_, ?_⟩
  · simp [Cache.get, hget]
  · intro s hs; subst hs; simp [Cache.get_str, Cache.getFn, hget, redisEncode]
  · intro b hb; subst hb; simp [Cache.get, hget, redisEncode]

/-- Witness for C1 at a concrete input: storing the text `"foo"` under the
fresh key `"k1"` and reading it back. -/
theorem store_get_roundtrip_witness :
    ("k1" : String) ≠ "Cache.store:outputs"
    ∧ (Cache.get (Cache.store ⟨[], 0⟩ "k1" (PyVal.pstr "foo")).1
          (Cache.store ⟨[], 0⟩ "k1" (PyVal.pstr "foo")).2
        = some (redisEncode (PyVal.pstr "foo"))
      ∧ (∀ s, PyVal.pstr "foo" = PyVal.pstr s →
          Cache.get_str (Cache.store ⟨[], 0⟩ "k1" (PyVal.pstr "foo")).1
            (Cache.store ⟨[], 0⟩ "k1" (PyVal.pstr "foo")).2 = some s)
      ∧ (∀ b, PyVal.pstr "foo" = PyVal.pbytes b →
          Cache.get (Cache.store ⟨[], 0⟩ "k1" (PyVal.pstr "foo")).1
            (Cache.store ⟨[], 0⟩ "k1" (PyVal.pstr "foo")).2 = some b)) :=
  ⟨by decide, store_get_roundtrip ⟨[], 0⟩ "k1" (PyVal.pstr "foo") (by decide)⟩

/-- C5: `get` on an identifier absent from the store returns `none` rather
than an error, no supplied conversion function is applied (for every
conversion function the result is still `none`), and the typed variants
`get_str` and `get_int` likewise return `none`. -/
theorem get_absent_returns_none (st : RedisState) (key : String)
    (h : lookupLive st key = none) :
    Cache.get st key = none
    ∧ (∀ (α : Type) (fn : String → α), Cache.getFn st key fn = none)
    ∧ Cache.get_str st key = none
    ∧ Cache.get_int st key = none := by
  have hget : redisGET st key = none := by simp [redisGET, h]
  exact ⟨by simp [Cache.get, hget], fun α fn => by simp [Cache.getFn, hget],
    by simp [Cache.get_str, Cache.getFn, hget], by simp [Cache.get_int, Cache.getFn, hget]⟩

/-- Witness for C5 on the empty store and the key `"missing"`. -/
theorem get_absent_returns_none_witness :
    lookupLive ⟨[], 0⟩ "missing" = none
    ∧ (Cache.get ⟨[], 0⟩ "missing" = none
      ∧ (∀ (α : Type) (fn : String → α), Cache.getFn ⟨[], 0⟩ "missing" fn = none)
      ∧ Cache.get_str ⟨[], 0⟩ "missing" = none
      ∧ Cache.get_int ⟨[], 0⟩ "missing" = none) :=
  ⟨by decide, get_absent_returns_none ⟨[], 0⟩ "missing" (by decide)⟩

/-- C10: constructing a `Cache` flushes the whole database: after
`Cache.__init__` every key — stored values, call counters, history
lists — is absent. -/
theorem init_flushes_everything (st : RedisState) (k : String) :
    lookupLive (Cache.init st) k = none
    ∧ redisGET (Cache.init st) k = none
    ∧ redisLrange (Cache.init st) k = []
    ∧ counterVal (Cache.init st) k = 0 := by
  have h : lookupLive (Cache.init st) k = none := lookupLive_flushdb st k
  exact ⟨h, by simp [redisGET, h], by simp [redisLrange, h], by simp [counterVal, h]⟩

/-- C2: after `n` sequential `Cache.store` calls on a fresh cache (the
generated keys avoiding the three instrumentation keys, as UUIDs do), the
call counter under the operation's qualified name equals `n`, both history
lists have length `n`, and the `i`-th input entry (`str(args)` of call `i`)
corresponds to the `i`-th output entry (the key returned by call `i`). -/
theorem store_count_and_history (st : RedisState) (calls : List (String × PyVal))
    (hfresh : ∀ c ∈ calls, c.1 ≠ "Cache.store" ∧ c.1 ≠ "Cache.store:inputs"
        ∧ c.1 ≠ "Cache.store:outputs") :
    counterVal (storeSeq (flushdb st) calls) "Cache.store" = calls.length
    ∧ (redisLrange (storeSeq (flushdb st) calls) "Cache.store:inputs").length
        = calls.length
    ∧ (redisLrange (storeSeq (flushdb st) calls) "Cache.store:outputs").length
        = calls.length
    ∧ ∀ (i : Nat) (k : String) (v : PyVal), calls[i]? = some (k, v) →
        (redisLrange (storeSeq (flushdb st) calls) "Cache.store:inputs")[i]?
            = some (strArgs v)
        ∧ (redisLrange (storeSeq (flushdb st) calls) "Cache.store:outputs")[i]?
            = some k := by
  have hs := storeSeq_spec calls (flushdb st) hfresh
  have hc0 : counterVal (flushdb st) "Cache.store" = 0 := by
    simp [counterVal, lookupLive_flushdb]
  have hl1 : redisLrange (flushdb st) "Cache.store:inputs" = [] := by
    simp [redisLrange, lookupLive_flushdb]
  have hl2 : redisLrange (flushdb st) "Cache.store:outputs" = [] := by
    simp [redisLrange, lookupLive_flushdb]
  refine ⟨?_, ?_, ?_, ?_⟩
  · rw [hs.1, hc0]; ring
  · rw [hs.2.1, hl1]; simp
  · rw [hs.2.2.1, hl2]; simp
  · intro i k v hi
    constructor
    · rw [hs.2.1, hl1]; simp [List.getElem?_map, hi]
    · rw [hs.2.2.1, hl2]; simp [List.getElem?_map, hi]

/-- Witness for C2: two concrete stores (a text and an integer) from a
flushed database, with concrete fresh keys. -/
theorem store_count_and_history_witness :
    (∀ c ∈ ([("k1", PyVal.pstr "foo"), ("k2", PyVal.pint 5)] : List (String × PyVal)),
        c.1 ≠ "Cache.store" ∧ c.1 ≠ "Cache.store:inputs" ∧ c.1 ≠ "Cache.store:outputs")
    ∧ (counterVal (storeSeq (flushdb ⟨[], 0⟩)
          [("k1", PyVal.pstr "foo"), ("k2", PyVal.pint 5)]) "Cache.store"
        = ([("k1", PyVal.pstr "foo"), ("k2", PyVal.pint 5)] : List (String × PyVal)).length
      ∧ (redisLrange (storeSeq (flushdb ⟨[], 0⟩)
            [("k1", PyVal.pstr "foo"), ("k2", PyVal.pint 5)]) "Cache.store:inputs").length
          = ([("k1", PyVal.pstr "foo"), ("k2", PyVal.pint 5)] : List (String × PyVal)).length
      ∧ (redisLrange (storeSeq (flushdb ⟨[], 0⟩)
            [("k1", PyVal.pstr "foo"), ("k2", PyVal.pint 5)]) "Cache.store:outputs").length
          = ([("k1", PyVal.pstr "foo"), ("k2", PyVal.pint 5)] : List (String × PyVal)).length
      ∧ ∀ (i : Nat) (k : String) (v : PyVal),
          ([("k1", PyVal.pstr "foo"), ("k2", PyVal.pint 5)] : List (String × PyVal))[i]?
              = some (k, v) →
          (redisLrange (storeSeq (flushdb ⟨[], 0⟩)
              [("k1", PyVal.pstr "foo"), ("k2", PyVal.pint 5)]) "Cache.store:inputs")[i]?
              = some (strArgs v)
          ∧ (redisLrange (storeSeq (flushdb ⟨[], 0⟩)
              [("k1", PyVal.pstr "foo"), ("k2", PyVal.pint 5)]) "Cache.store:outputs")[i]?
              = some k) :=
  ⟨by decide, store_count_and_history ⟨[], 0⟩
    [("k1", PyVal.pstr "foo"), ("k2", PyVal.pint 5)] (by decide)⟩

/-- C7: `replay` pairs the inputs and outputs histories only up to the
length of the shorter list — the printed report is the header plus exactly
`min |inputs| |outputs|` detail lines — and the `(i+1)`-st printed line
pairs the `i`-th input with the `i`-th output, in sequence order.  This
holds for every database state, including histories shorter than the
recorded counter. -/
theorem replay_pairs_shorter (st : RedisState) (qualname : String) :
    (Cache.replay st qualname).length
        = min (redisLrange st (qualname ++ ":inputs")).length
            (redisLrange st (qualname ++ ":outputs")).length + 1
    ∧ ∀ (i : Nat) (a b : String),
        (redisLrange st (qualname ++ ":inputs"))[i]? = some a →
        (redisLrange st (qualname ++ ":outputs"))[i]? = some b →
        (Cache.replay st qualname)[i + 1]?
            = some (qualname ++ "(*" ++ a ++ ") -> " ++ b) := by
  constructor
  · simp [Cache.replay, List.length_zip]
  · intro i a b ha hb
    have hz : ((redisLrange st (qualname ++ ":inputs")).zip
        (redisLrange st (qualname ++ ":outputs")))[i]? = some (a, b) :=
      List.getElem?_zip_eq_some.mpr ⟨ha, hb⟩
    simp [Cache.replay, List.getElem?_map, hz]

/-- Witness for C7 at a concrete state whose histories hold one pair. -/
theorem replay_pairs_shorter_witness :
    (Cache.replay ⟨[("q:inputs", ⟨RVal.list ["('foo',)"], none⟩),
          ("q:outputs", ⟨RVal.list ["k1"], none⟩)], 0⟩ "q").length
        = min (redisLrange ⟨[("q:inputs", ⟨RVal.list ["('foo',)"], none⟩),
              ("q:outputs", ⟨RVal.list ["k1"], none⟩)], 0⟩ ("q" ++ ":inputs")).length
            (redisLrange ⟨[("q:inputs", ⟨RVal.list ["('foo',)"], none⟩),
              ("q:outputs", ⟨RVal.list ["k1"], none⟩)], 0⟩ ("q" ++ ":outputs")).length + 1
    ∧ ∀ (i : Nat) (a b : String),
        (redisLrange ⟨[("q:inputs", ⟨RVal.list ["('foo',)"], none⟩),
            ("q:outputs", ⟨RVal.list ["k1"], none⟩)], 0⟩ ("q" ++ ":inputs"))[i]? = some a →
        (redisLrange ⟨[("q:inputs", ⟨RVal.list ["('foo',)"], none⟩),
            ("q:outputs", ⟨RVal.list ["k1"], none⟩)], 0⟩ ("q" ++ ":outputs"))[i]? = some b →
        (Cache.replay ⟨[("q:inputs", ⟨RVal.list ["('foo',)"], none⟩),
            ("q:outputs", ⟨RVal.list ["k1"], none⟩)], 0⟩ "q")[i + 1]?
            = some ("q" ++ "(*" ++ a ++ ") -> " ++ b) :=
  replay_pairs_shorter ⟨[("q:inputs", ⟨RVal.list ["('foo',)"], none⟩),
    ("q:outputs", ⟨RVal.list ["k1"], none⟩)], 0⟩ "q"

/-- C6: on a database produced by the program itself (a fresh cache
followed by a sequence of store calls with fresh generated keys), when the
call count `replay` computes is 0, `replay` emits exactly one line — the
header, which reads `"Cache.store was called 0 times:"` and so contains
`"0 times"` — and no per-call detail lines. -/
theorem replay_zero_calls (st : RedisState) (calls : List (String × PyVal))
    (hfresh : ∀ c ∈ calls, c.1 ≠ "Cache.store" ∧ c.1 ≠ "Cache.store:inputs"
        ∧ c.1 ≠ "Cache.store:outputs")
    (h0 : replayCount (storeSeq (flushdb st) calls) "Cache.store" = 0) :
    Cache.replay (storeSeq (flushdb st) calls) "Cache.store"
        = ["Cache.store was called 0 times:"] := by
  have hs := storeSeq_spec calls (flushdb st) hfresh
  have hnil : calls = [] := by
    by_contra hne
    have hc0 : counterVal (flushdb st) "Cache.store" = 0 := by
      simp [counterVal, lookupLive_flushdb]
    have hl := hs.2.2.2 hne
    rw [hc0] at hl
    have hrc : replayCount (storeSeq (flushdb st) calls) "Cache.store"
        = (calls.length : Int) := by
      simp [replayCount, hl]
    rw [hrc] at h0
    have hlen : calls.length = 0 := by exact_mod_cast h0
    exact hne (List.length_eq_zero.mp hlen)
  subst hnil
  rw [storeSeq_nil]
  simp only [Cache.replay, replayCount, redisLrange, lookupLive_flushdb]
  decide

/-- Witness for C6: the empty call sequence on a flushed database. -/
theorem replay_zero_calls_witness :
    (∀ c ∈ ([] : List (String × PyVal)), c.1 ≠ "Cache.store"
        ∧ c.1 ≠ "Cache.store:inputs" ∧ c.1 ≠ "Cache.store:outputs")
    ∧ replayCount (storeSeq (flushdb ⟨[], 0⟩) []) "Cache.store" = 0
    ∧ Cache.replay (storeSeq (flushdb ⟨[], 0⟩) []) "Cache.store"
        = ["Cache.store was called 0 times:"] :=
  ⟨by simp, by decide, replay_zero_calls ⟨[], 0⟩ [] (by simp) (by decide)⟩

/-- C8 fails as stated: a call whose body raises (here the body raises
right after the counter INCR, e.g. the store becomes unavailable at the
SET) has already RPUSHed its input, but the output RPUSH is skipped, so
the inputs list ends up one entry longer than the outputs list. -/
theorem call_history_error_skews_lengths :
    (redisLrange (call_history_run ⟨[], 0⟩ "Cache.store" "('foo',)"
        (fun s => (redisIncr s "Cache.store", none))).1 "Cache.store:inputs").length = 1
    ∧ (redisLrange (call_history_run ⟨[], 0⟩ "Cache.store" "('foo',)"
        (fun s => (redisIncr s "Cache.store", none))).1 "Cache.store:outputs").length
        = 0 := by decide

/-- C8 amended: for every sequence of calls to the instrumented store
operation whose bodies complete normally, the inputs and outputs history
lists always have the same length and correspond positionally; a call
whose body raises records its input but no output, leaving the inputs
list one entry longer. -/
theorem history_lists_correspond (st : RedisState) (calls : List (String × PyVal))
    (hfresh : ∀ c ∈ calls, c.1 ≠ "Cache.store" ∧ c.1 ≠ "Cache.store:inputs"
        ∧ c.1 ≠ "Cache.store:outputs") :
    (redisLrange (storeSeq (flushdb st) calls) "Cache.store:inputs").length
        = (redisLrange (storeSeq (flushdb st) calls) "Cache.store:outputs").length
    ∧ ∀ (i : Nat) (k : String) (v : PyVal), calls[i]? = some (k, v) →
        (redisLrange (storeSeq (flushdb st) calls) "Cache.store:inputs")[i]?
            = some (strArgs v)
        ∧ (redisLrange (storeSeq (flushdb st) calls) "Cache.store:outputs")[i]?
            = some k := by
  have hs := storeSeq_spec calls (flushdb st) hfresh
  have hl1 : redisLrange (flushdb st) "Cache.store:inputs" = [] := by
    simp [redisLrange, lookupLive_flushdb]
  have hl2 : redisLrange (flushdb st) "Cache.store:outputs" = [] := by
    simp [redisLrange, lookupLive_flushdb]
  refine ⟨?_, ?_⟩
  · rw [hs.2.1, hs.2.2.1, hl1, hl2]; simp
  · intro i k v hi
    constructor
    · rw [hs.2.1, hl1]; simp [List.getElem?_map, hi]
    · rw [hs.2.2.1, hl2]; simp [List.getElem?_map, hi]

/-- Witness for the amended C8: two successful store calls with fresh keys. -/
theorem history_lists_correspond_witness :
    (∀ c ∈ ([("k1", PyVal.pstr "foo"), ("k2", PyVal.pbytes "bar")] : List (String × PyVal)),
        c.1 ≠ "Cache.store" ∧ c.1 ≠ "Cache.store:inputs" ∧ c.1 ≠ "Cache.store:outputs")
    ∧ ((redisLrange (storeSeq (flushdb ⟨[], 0⟩)
          [("k1", PyVal.pstr "foo"), ("k2", PyVal.pbytes "bar")]) "Cache.store:inputs").length
        = (redisLrange (storeSeq (flushdb ⟨[], 0⟩)
          [("k1", PyVal.pstr "foo"), ("k2", PyVal.pbytes "bar")]) "Cache.store:outputs").length
      ∧ ∀ (i : Nat) (k : String) (v : PyVal),
          ([("k1", PyVal.pstr "foo"), ("k2", PyVal.pbytes "bar")]
              : List (String × PyVal))[i]? = some (k, v) →
          (redisLrange (storeSeq (flushdb ⟨[], 0⟩)
              [("k1", PyVal.pstr "foo"), ("k2", PyVal.pbytes "bar")])
              "Cache.store:inputs")[i]? = some (strArgs v)
          ∧ (redisLrange (storeSeq (flushdb ⟨[], 0⟩)
              [("k1", PyVal.pstr "foo"), ("k2", PyVal.pbytes "bar")])
              "Cache.store:outputs")[i]? = some k) :=
  ⟨by decide, history_lists_correspond ⟨[], 0⟩
    [("k1", PyVal.pstr "foo"), ("k2", PyVal.pbytes "bar")] (by decide)⟩

/-- The counter at `count:<url>` after one `get_page` call, on every path
(cache hit, miss with successful fetch, miss with failed fetch): one more
than before the call. -/
theorem get_page_counter (st : RedisState) (remote : String → Option String)
    (url : String) :
    counterVal (get_page st remote url).st ("count:" ++ url)
        = counterVal st ("count:" ++ url) + 1 := by
  have hne := count_key_ne_cache_key url
  cases htr : truthy (redisGET (redisIncr st ("count:" ++ url)) ("cache:" ++ url)) with
  | true => simp [get_page, htr, counterVal_incr_self]
  | false =>
    cases hr : remote url with
    | none => simp [get_page, htr, hr, counterVal_incr_self]
    | some html =>
      simp only [get_page, htr, hr, Bool.false_eq_true, if_false]
      rw [counterVal_setex_ne _ _ _ _ _ hne, counterVal_incr_self]

/-- The counter entry written by `get_page` survives any passage of time
(INCR stores without TTL). -/
theorem get_page_counter_tick (st : RedisState) (remote : String → Option String)
    (url : String) (dt : Nat) :
    lookupLive (tick (get_page st remote url).st dt) ("count:" ++ url)
        = some (RVal.int (counterVal st ("count:" ++ url) + 1)) := by
  have hne := count_key_ne_cache_key url
  cases htr : truthy (redisGET (redisIncr st ("count:" ++ url)) ("cache:" ++ url)) with
  | true => simp [get_page, htr, lookupLive_tick_incr_self]
  | false =>
    cases hr : remote url with
    | none => simp [get_page, htr, hr, lookupLive_tick_incr_self]
    | some html =>
      simp only [get_page, htr, hr, Bool.false_eq_true, if_false]
      rw [lookupLive_tick_setex_ne _ _ _ _ _ _ hne, lookupLive_tick_incr_self]

/-- C4: every `get_page` call increments the access counter keyed
`count:<url>` — on cache hits, on misses, and even when the remote fetch
fails, since the INCR happens before anything else — and starting from a
state with no counter for `url`, two calls (with any time in between and
any remote outcomes) leave the counter at exactly 2. -/
theorem fetch_always_counts (st : RedisState)
    (remote remote2 : String → Option String) (url : String) (dt : Nat) :
    counterVal (get_page st remote url).st ("count:" ++ url)
        = counterVal st ("count:" ++ url) + 1
    ∧ (lookupLive st ("count:" ++ url) = none →
        counterVal (get_page (tick (get_page st remote url).st dt) remote2 url).st
            ("count:" ++ url) = 2) := by
  refine ⟨get_page_counter st remote url, fun h0 => ?_⟩
  have hc0 : counterVal st ("count:" ++ url) = 0 := by simp [counterVal, h0]
  have h1 : counterVal (tick (get_page st remote url).st dt) ("count:" ++ url) = 1 := by
    rw [counterVal_of_lookup _ _ _ (get_page_counter_tick st remote url dt), hc0]
    norm_num
  rw [get_page_counter _ remote2 url, h1]
  norm_num

/-- Witness for C4: two calls on the empty database, the first remote
fetch succeeding and the second failing. -/
theorem fetch_always_counts_witness :
    (counterVal (get_page ⟨[], 0⟩ (fun _ => some "hi") "u").st ("count:" ++ "u")
        = counterVal ⟨[], 0⟩ ("count:" ++ "u") + 1
    ∧ (lookupLive ⟨[], 0⟩ ("count:" ++ "u") = none →
        counterVal (get_page (tick (get_page ⟨[], 0⟩ (fun _ => some "hi") "u").st 3)
            (fun _ => none) "u").st ("count:" ++ "u") = 2))
    ∧ lookupLive ⟨[], 0⟩ ("count:" ++ "u") = none :=
  ⟨fetch_always_counts ⟨[], 0⟩ (fun _ => some "hi") (fun _ => none) "u" 3, by decide⟩

/-- C3 fails as stated: when the fetched content is the empty string, the
wrapper's `if cached_content:` truthiness test treats the cached empty
byte string as a miss, so two calls to `get_page` within the TTL window
(here 5 of 10 time units apart) invoke the remote-fetch primitive twice,
not at most once — even though both calls do return identical content. -/
theorem fetch_twice_empty_content_two_remote_calls :
    (get_page ⟨[], 0⟩ (fun _ => some "") "u").remoteCalls
      + (get_page (tick (get_page ⟨[], 0⟩ (fun _ => some "") "u").st 5)
          (fun _ => some "") "u").remoteCalls = 2
    ∧ (get_page ⟨[], 0⟩ (fun _ => some "") "u").result
        = (get_page (tick (get_page ⟨[], 0⟩ (fun _ => some "") "u").st 5)
            (fun _ => some "") "u").result := by decide

/-- C3 amended: for every url and every NON-EMPTY fetched content, two
calls to `get_page` within the 10-time-unit TTL window, starting with the
cache entry falsy (absent or empty), invoke the remote-fetch primitive
exactly once overall — on the first call only — and both calls return that
same content.  (With empty content the stored entry is falsy on read and
the primitive is invoked again; see the counterexample.) -/
theorem fetch_twice_within_ttl (st : RedisState)
    (remote remote2 : String → Option String) (url c : String) (dt : Nat)
    (hmiss : truthy (redisGET st ("cache:" ++ url)) = false)
    (hremote : remote url = some c) (hc : c ≠ "") (hdt : dt < 10) :
    (get_page st remote url).result = some c
    ∧ (get_page st remote url).remoteCalls = 1
    ∧ (get_page (tick (get_page st remote url).st dt) remote2 url).result = some c
    ∧ (get_page (tick (get_page st remote url).st dt) remote2 url).remoteCalls = 0 := by
  have hne := count_key_ne_cache_key url
  have hmiss1 : truthy (redisGET (redisIncr st ("count:" ++ url)) ("cache:" ++ url))
      = false := by
    rw [redisGET_incr_ne _ _ _ (Ne.symm hne)]; exact hmiss
  have h1 : get_page st remote url
      = ⟨redisSetex (redisIncr st ("count:" ++ url)) ("cache:" ++ url) 10 c,
          some c, 1⟩ := by
    simp [get_page, hmiss1, hremote]
  have hhit : redisGET (redisIncr (tick (redisSetex (redisIncr st ("count:" ++ url))
        ("cache:" ++ url) 10 c) dt) ("count:" ++ url)) ("cache:" ++ url) = some c := by
    rw [redisGET_incr_ne _ _ _ (Ne.symm hne), redisGET_tick_setex_self _ _ _ _ _ hdt]
  have h2 : get_page (tick (get_page st remote url).st dt) remote2 url
      = ⟨redisIncr (tick (redisSetex (redisIncr st ("count:" ++ url))
            ("cache:" ++ url) 10 c) dt) ("count:" ++ url), some c, 0⟩ := by
    rw [h1]
    simp [get_page, hhit, truthy, hc]
  rw [h2, h1]
  exact ⟨rfl, rfl, rfl, rfl⟩

/-- Witness for C3 (amended) at a concrete input: the content `"hello"`
fetched on the empty database, the second call 5 time units later. -/
theorem fetch_twice_within_ttl_witness :
    (truthy (redisGET ⟨[], 0⟩ ("cache:" ++ "u")) = false
      ∧ (fun _ => some "hello") "u" = some "hello" ∧ "hello" ≠ "" ∧ 5 < 10)
    ∧ ((get_page ⟨[], 0⟩ (fun _ => some "hello") "u").result = some "hello"
      ∧ (get_page ⟨[], 0⟩ (fun _ => some "hello") "u").remoteCalls = 1
      ∧ (get_page (tick (get_page ⟨[], 0⟩ (fun _ => some "hello") "u").st 5)
          (fun _ => none) "u").result = some "hello"
      ∧ (get_page (tick (get_page ⟨[], 0⟩ (fun _ => some "hello") "u").st 5)
          (fun _ => none) "u").remoteCalls = 0) :=
  ⟨⟨by decide, rfl, by decide, by decide⟩,
    fetch_twice_within_ttl ⟨[], 0⟩ (fun _ => some "hello") (fun _ => none) "u" "hello" 5
      (by decide) rfl (by decide) (by decide)⟩

/-- C9: when the remote-fetch primitive fails, `get_page` leaves the cache
entry for the url unchanged — a failure is never stored as a cached
success — and, whenever the primitive is actually consulted (i.e. the
cached value was falsy), the failure propagates to the caller. -/
theorem fetch_failure_propagates (st : RedisState)
    (remote : String → Option String) (url : String)
    (hfail : remote url = none) :
    lookupLive (get_page st remote url).st ("cache:" ++ url)
        = lookupLive st ("cache:" ++ url)
    ∧ (truthy (redisGET st ("cache:" ++ url)) = false →
        (get_page st remote url).result = none) := by
  have hne := count_key_ne_cache_key url
  have hstate : lookupLive (redisIncr st ("count:" ++ url)) ("cache:" ++ url)
      = lookupLive st ("cache:" ++ url) := lookupLive_incr_ne _ _ _ (Ne.symm hne)
  have hframe : redisGET (redisIncr st ("count:" ++ url)) ("cache:" ++ url)
      = redisGET st ("cache:" ++ url) := redisGET_incr_ne _ _ _ (Ne.symm hne)
  cases htr : truthy (redisGET st ("cache:" ++ url)) with
  | true =>
    have h1 : get_page st remote url
        = ⟨redisIncr st ("count:" ++ url),
            some ((redisGET st ("cache:" ++ url)).getD ""), 0⟩ := by
      simp [get_page, hframe, htr]
    rw [h1]
    exact ⟨hstate, fun hcontra => absurd hcontra (by simp [htr])⟩
  | false =>
    have h1 : get_page st remote url = ⟨redisIncr st ("count:" ++ url), none, 1⟩ := by
      simp [get_page, hframe, htr, hfail]
    rw [h1]
    exact ⟨hstate, fun _ => rfl⟩

/-- Witness for C9: a failing fetch of `"u"` against a database that holds
an unrelated cached entry. -/
theorem fetch_failure_propagates_witness :
    (fun (_ : String) => (none : Option String)) "u" = none
    ∧ (lookupLive (get_page ⟨[("cache:v", ⟨RVal.str "old", none⟩)], 0⟩
          (fun _ => none) "u").st ("cache:" ++ "u")
        = lookupLive ⟨[("cache:v", ⟨RVal.str "old", none⟩)], 0⟩ ("cache:" ++ "u")
      ∧ (truthy (redisGET ⟨[("cache:v", ⟨RVal.str "old", none⟩)], 0⟩ ("cache:" ++ "u"))
            = false →
          (get_page ⟨[("cache:v", ⟨RVal.str "old", none⟩)], 0⟩
              (fun _ => none) "u").result = none)) :=
  ⟨rfl, fetch_failure_propagates ⟨[("cache:v", ⟨RVal.str "old", none⟩)], 0⟩
    (fun _ => none) "u" rfl⟩
